import Mathlib

/-!
Shallow embedding of the Downstream Dispatch Core of
`cloud/pkg/edgecontroller/controller/downstream.go` (fornax).

Each sync loop is embedded as a pure per-event handler
`LocationCache → (LocationCache, List Message)`: the loop body between two
channel reads, with the message layer `Send` replaced by appending the
message to the returned list.  The `manager.LocationCache` and
`messagelayer.BuildResource` collaborators are not part of the given
sources; they are modelled from the specification (section 3, 4.1 and 6)
and marked `Modelled from the spec:` below.
-/

namespace Fornax

/-! ### Association-list maps (model of Go maps) -/

/-- First-match lookup in an association list. -/
def lookupA {κ β : Type} [DecidableEq κ] : List (κ × β) → κ → Option β
  | [], _ => none
  | p :: rest, k => if p.1 = k then some p.2 else lookupA rest k

/-- Insert-or-overwrite in an association list (Go map assignment). -/
def setA {κ β : Type} [DecidableEq κ] : List (κ × β) → κ → β → List (κ × β)
  | [], k, v => [(k, v)]
  | p :: rest, k, v => if p.1 = k then (k, v) :: rest else p :: setA rest k v

/-- Remove a key from an association list (Go map `delete`). -/
def eraseA {κ β : Type} [DecidableEq κ] : List (κ × β) → κ → List (κ × β)
  | [], _ => []
  | p :: rest, k => if p.1 = k then eraseA rest k else p :: eraseA rest k

/-! ### Resource objects (the fields the dispatch core reads) -/

/-- A pod, with the volume/envFrom references already flattened to the
configmap and secret names it mentions. -/
structure Pod where
  name : String
  namespace_ : String
  nodeName : String
  resourceVersion : String
  configMaps : List String
  secrets : List String
  deriving DecidableEq, Repr

structure ConfigMap where
  name : String
  namespace_ : String
  resourceVersion : String
  deriving DecidableEq, Repr

structure Secret where
  name : String
  namespace_ : String
  resourceVersion : String
  deriving DecidableEq, Repr

structure NodeCondition where
  condType : String
  status : String
  deriving DecidableEq, Repr

structure NodeObj where
  name : String
  resourceVersion : String
  conditions : List NodeCondition
  deriving DecidableEq, Repr

structure Rule where
  name : String
  resourceVersion : String
  deriving DecidableEq, Repr

structure RuleEndpoint where
  name : String
  resourceVersion : String
  deriving DecidableEq, Repr

structure Mission where
  name : String
  resourceVersion : String
  deriving DecidableEq, Repr

structure EdgeCluster where
  name : String
  resourceVersion : String
  receivedMissions : List String
  deriving DecidableEq, Repr

/-- `watch.EventType`; `bookmark` stands for any event type that falls into
the `default:` branch of the switches. -/
inductive EventType where
  | added
  | modified
  | deleted
  | bookmark
  deriving DecidableEq, Repr

/-! ### LocationCache (modelled from the spec) -/

/-- Cached per-pod reference record kept in `PodIndex`. -/
structure PodRecord where
  nodeName : String
  configMaps : List String
  secrets : List String
  deriving DecidableEq, Repr

/-- Modelled from the spec: `manager.LocationCache` (spec section 3), the
multi-index `EdgeNodes / ConfigMapNodes / SecretNodes / PodIndex /
EdgeClusters`.  `edgeClusters` keeps the key set of the concurrent map
`clusterName → presentFlag` (the flag is always `true`). -/
structure LocationCache where
  edgeNodes : List (String × String)
  configMapNodes : List ((String × String) × List String)
  secretNodes : List ((String × String) × List String)
  podIndex : List ((String × String) × PodRecord)
  edgeClusters : List String
  deriving DecidableEq, Repr

namespace LocationCache

/-- Modelled from the spec: `IsEdgeNode(name)` — true iff `name` is in
`EdgeNodes`. -/
def isEdgeNode (lc : LocationCache) (n : String) : Bool :=
  (lookupA lc.edgeNodes n).isSome

/-- Modelled from the spec: `UpdateEdgeNode(name, status)` — idempotent
insert-or-overwrite. -/
def updateEdgeNode (lc : LocationCache) (n status : String) : LocationCache :=
  { lc with edgeNodes := setA lc.edgeNodes n status }

/-- Modelled from the spec: `GetNodeStatus(name) → (status, found)`. -/
def getNodeStatus (lc : LocationCache) (n : String) : Option String :=
  lookupA lc.edgeNodes n

/-- Remove a node name from every value set of a `(ns,name) → set<node>`
index, pruning entries whose set becomes empty. -/
def dropNode (n : String) :
    List ((String × String) × List String) → List ((String × String) × List String)
  | [] => []
  | p :: rest =>
    if (p.2.filter (fun x => !(x == n))).isEmpty then dropNode n rest
    else (p.1, p.2.filter (fun x => !(x == n))) :: dropNode n rest

/-- Modelled from the spec: `DeleteNode(name)` — removes the node from
`EdgeNodes` and from every value set in `ConfigMapNodes`/`SecretNodes`;
empty sets are pruned. -/
def deleteNode (lc : LocationCache) (n : String) : LocationCache :=
  { lc with
    edgeNodes := eraseA lc.edgeNodes n
    configMapNodes := dropNode n lc.configMapNodes
    secretNodes := dropNode n lc.secretNodes }

/-- Add a node to the value set of a `(ns,name)` index entry (set
semantics). -/
def addToSet (m : List ((String × String) × List String))
    (k : String × String) (n : String) : List ((String × String) × List String) :=
  let cur := (lookupA m k).getD []
  setA m k (if cur.contains n then cur else cur ++ [n])

/-- Remove a node from the value set of a `(ns,name)` index entry, pruning
the entry if the set becomes empty. -/
def removeFromSet (m : List ((String × String) × List String))
    (k : String × String) (n : String) : List ((String × String) × List String) :=
  match lookupA m k with
  | none => m
  | some cur =>
    let v := cur.filter (fun x => !(x == n))
    if v.isEmpty then eraseA m k else setA m k v

/-- Modelled from the spec: `AddOrUpdatePod(pod)` — for each configmap and
secret referenced by the pod, add `pod.Spec.NodeName` to the corresponding
index entry; on update, diff against the prior reference set cached in
`PodIndex` and remove stale memberships; finally record the pod. -/
def addOrUpdatePod (lc : LocationCache) (pod : Pod) : LocationCache :=
  let key := (pod.namespace_, pod.name)
  let prior := lookupA lc.podIndex key
  let cmAfterStale :=
    match prior with
    | none => lc.configMapNodes
    | some old =>
      (old.configMaps.filter (fun c => !(pod.configMaps.contains c))).foldl
        (fun m c => removeFromSet m (pod.namespace_, c) old.nodeName) lc.configMapNodes
  let secAfterStale :=
    match prior with
    | none => lc.secretNodes
    | some old =>
      (old.secrets.filter (fun s => !(pod.secrets.contains s))).foldl
        (fun m s => removeFromSet m (pod.namespace_, s) old.nodeName) lc.secretNodes
  { lc with
    configMapNodes :=
      pod.configMaps.foldl (fun m c => addToSet m (pod.namespace_, c) pod.nodeName)
        cmAfterStale
    secretNodes :=
      pod.secrets.foldl (fun m s => addToSet m (pod.namespace_, s) pod.nodeName)
        secAfterStale
    podIndex := setA lc.podIndex key ⟨pod.nodeName, pod.configMaps, pod.secrets⟩ }

/-- Modelled from the spec: `ConfigMapNodes(ns, name)` — snapshot of the
node set referencing the configmap. -/
def configMapNodesOf (lc : LocationCache) (ns nm : String) : List String :=
  (lookupA lc.configMapNodes (ns, nm)).getD []

/-- Modelled from the spec: `SecretNodes(ns, name)`. -/
def secretNodesOf (lc : LocationCache) (ns nm : String) : List String :=
  (lookupA lc.secretNodes (ns, nm)).getD []

/-- Modelled from the spec: `DeleteConfigMap(ns, name)` — purge the index
entry. -/
def deleteConfigMap (lc : LocationCache) (ns nm : String) : LocationCache :=
  { lc with configMapNodes := eraseA lc.configMapNodes (ns, nm) }

/-- Modelled from the spec: `DeleteSecret(ns, name)`. -/
def deleteSecret (lc : LocationCache) (ns nm : String) : LocationCache :=
  { lc with secretNodes := eraseA lc.secretNodes (ns, nm) }

/-- Modelled from the spec: `UpdateEdgeCluster(name, present)` — record the
cluster in the concurrent map. -/
def updateEdgeCluster (lc : LocationCache) (n : String) (_present : Bool) :
    LocationCache :=
  { lc with edgeClusters :=
      if lc.edgeClusters.contains n then lc.edgeClusters
      else lc.edgeClusters ++ [n] }

/-- Modelled from the spec: `DeleteEdgeCluster(name)`. -/
def deleteEdgeCluster (lc : LocationCache) (n : String) : LocationCache :=
  { lc with edgeClusters := lc.edgeClusters.filter (fun x => !(x == n)) }

end LocationCache

/-! ### Message model and resource identifiers (modelled from the spec) -/

/-- Typed message payload (`FillBody` / `msg.Content` assignment).  `empty`
is the body of a message that never had `FillBody` called on it. -/
inductive Content where
  | empty
  | podC (p : Pod)
  | configMapC (c : ConfigMap)
  | secretC (s : Secret)
  | ruleC (r : Rule)
  | ruleEndpointC (r : RuleEndpoint)
  | missionC (m : Mission)
  | missionListC (l : List Mission)
  deriving DecidableEq, Repr

/-- The observable part of a `model.Message` envelope handed to
`MessageLayer.Send`: resource path, operation, header resource version
(`""` when `SetResourceVersion` was never called) and content.  Source and
group are the constants `edgecontroller`/`resource` on every message and
are omitted. -/
structure Message where
  resource : String
  operation : String
  resourceVersion : String
  content : Content
  deriving DecidableEq, Repr

/-- Modelled from the spec: `messagelayer.BuildResource(dest, ns, kind,
name)` builds the slash-delimited path `<dest>/<ns>/<kind>/<name>`
(section 6; the missionlist path `<clusterName>/default/missionlist/`
shows the trailing separator is kept for an empty name). -/
def resourcePath (dest ns kind nm : String) : String :=
  dest ++ "/" ++ ns ++ "/" ++ kind ++ "/" ++ nm

/-- Modelled from the spec: `messagelayer.BuildResource` fails exactly when
a required field — namespace or resource kind — is missing (section 7:
"malformed identifier, missing field"), and otherwise yields the
slash-delimited resource path. -/
def buildResource (dest ns kind nm : String) : Except String String :=
  if ns = "" ∨ kind = "" then .error "required parameter are not set"
  else .ok (resourcePath dest ns kind nm)

/-- Modelled from the spec: `messagelayer.BuildResourceForRouter(kind,
name)` builds `<kind>/<name>` (no destination or namespace) and fails when
a required field — kind or name — is missing. -/
def buildResourceForRouter (kind nm : String) : Except String String :=
  if kind = "" ∨ nm = "" then .error "required parameter are not set"
  else .ok (kind ++ "/" ++ nm)

/-! ### Sync-loop handlers (from `downstream.go`) -/

open LocationCache

/-- One iteration of `syncPod` (downstream.go lines 74–106): skip non-edge
nodes, build the resource, then map the event type to an operation,
refreshing the pod index on Added/Modified. -/
def syncPodEvent (t : EventType) (pod : Pod) (lc : LocationCache) :
    LocationCache × List Message :=
  if !(lc.isEdgeNode pod.nodeName) then (lc, [])
  else
    match buildResource pod.nodeName pod.namespace_ "pod" pod.name with
    | .error _ => (lc, [])
    | .ok r =>
      match t with
      | .added =>
        (lc.addOrUpdatePod pod, [⟨r, "insert", pod.resourceVersion, .podC pod⟩])
      | .deleted =>
        (lc, [⟨r, "delete", pod.resourceVersion, .podC pod⟩])
      | .modified =>
        (lc.addOrUpdatePod pod, [⟨r, "update", pod.resourceVersion, .podC pod⟩])
      | .bookmark => (lc, [])

/-- One iteration of `syncConfigMap` (downstream.go lines 116–154): map the
event type, snapshot `ConfigMapNodes`, purge the entry on Deleted, then
fan out to the snapshot (skipping destinations whose build fails). -/
def syncConfigMapEvent (t : EventType) (cm : ConfigMap) (lc : LocationCache) :
    LocationCache × List Message :=
  let op? : Option String :=
    match t with
    | .added => some "insert"
    | .modified => some "update"
    | .deleted => some "delete"
    | .bookmark => none
  match op? with
  | none => (lc, [])
  | some op =>
    let nodes := lc.configMapNodesOf cm.namespace_ cm.name
    let lc' := if t = .deleted then lc.deleteConfigMap cm.namespace_ cm.name else lc
    (lc', nodes.filterMap (fun n =>
      (buildResource n cm.namespace_ "configmap" cm.name).toOption.map
        (fun r => ⟨r, op, cm.resourceVersion, .configMapC cm⟩)))

/-- One iteration of `syncSecret` (downstream.go lines 164–203).  The
`Added` case falls through to `Modified`, so both map to `update`. -/
def syncSecretEvent (t : EventType) (s : Secret) (lc : LocationCache) :
    LocationCache × List Message :=
  let op? : Option String :=
    match t with
    | .added => some "update"
    | .modified => some "update"
    | .deleted => some "delete"
    | .bookmark => none
  match op? with
  | none => (lc, [])
  | some op =>
    let nodes := lc.secretNodesOf s.namespace_ s.name
    let lc' := if t = .deleted then lc.deleteSecret s.namespace_ s.name else lc
    (lc', nodes.filterMap (fun n =>
      (buildResource n s.namespace_ "secret" s.name).toOption.map
        (fun r => ⟨r, op, s.resourceVersion, .secretC s⟩)))

/-- One iteration of `syncEdgeNodes` (downstream.go lines 213–250).  On
Added/Modified, each `Ready` condition updates the edge-node status; no
message is emitted.  On Deleted, the node is removed from the cache and a
delete message (no resource version, no body) is routed to the node with
the literal `"namespace"` segment. -/
def syncEdgeNodesEvent (t : EventType) (node : NodeObj) (lc : LocationCache) :
    LocationCache × List Message :=
  match t with
  | .added | .modified =>
    (node.conditions.foldl
      (fun acc c =>
        if c.condType = "Ready" then acc.updateEdgeNode node.name c.status else acc)
      lc, [])
  | .deleted =>
    let lc' := lc.deleteNode node.name
    match buildResource node.name "namespace" "node" node.name with
    | .error _ => (lc', [])
    | .ok r => (lc', [⟨r, "delete", "", .empty⟩])
  | .bookmark => (lc, [])

/-- One iteration of `syncRule` (downstream.go lines 260–290): the cache is
untouched; `Modified` is unsupported. -/
def syncRuleEvent (t : EventType) (r : Rule) : List Message :=
  match buildResourceForRouter "rule" r.name with
  | .error _ => []
  | .ok res =>
    match t with
    | .added => [⟨res, "insert", r.resourceVersion, .ruleC r⟩]
    | .deleted => [⟨res, "delete", r.resourceVersion, .ruleC r⟩]
    | .modified => []
    | .bookmark => []

/-- One iteration of `syncRuleEndpoint` (downstream.go lines 300–331). -/
def syncRuleEndpointEvent (t : EventType) (r : RuleEndpoint) : List Message :=
  match buildResourceForRouter "ruleendpoint" r.name with
  | .error _ => []
  | .ok res =>
    match t with
    | .added => [⟨res, "insert", r.resourceVersion, .ruleEndpointC r⟩]
    | .deleted => [⟨res, "delete", r.resourceVersion, .ruleEndpointC r⟩]
    | .modified => []
    | .bookmark => []

/-- One iteration of `syncMissions` (downstream.go lines 342–383): map the
event type, then `Range` over `EdgeClusters`, sending one message per
registered cluster with namespace `"default"` (a cluster whose build
fails is skipped). -/
def syncMissionsEvent (t : EventType) (m : Mission) (lc : LocationCache) :
    LocationCache × List Message :=
  let op? : Option String :=
    match t with
    | .added => some "insert"
    | .modified => some "update"
    | .deleted => some "delete"
    | .bookmark => none
  match op? with
  | none => (lc, [])
  | some op =>
    (lc, lc.edgeClusters.filterMap (fun c =>
      (buildResource c "default" "mission" m.name).toOption.map
        (fun r => ⟨r, op, m.resourceVersion, .missionC m⟩)))

/-- `reflect.DeepEqual` on the two `map[string]bool` values built in
`syncEdgeClusters` with constant value `true`: the maps are equal exactly
when the key sets — the underlying name lists up to duplication and order —
coincide. -/
def sameStringSet (a b : List String) : Bool :=
  a.all (fun x => b.contains x) && b.all (fun x => a.contains x)

/-- One iteration of `syncEdgeClusters` (downstream.go lines 393–440).  On
Added/Modified it reconciles: if the mission lister fails, nothing is
emitted; otherwise the reported mission-name set is compared with the
cloud mission-name set and, when they differ, a single `update` message
with the full mission list is routed to the cluster.  The build error of
the missionlist resource is ignored by the source (the `err` at line 426
is never checked), so an error would leave the zero-value resource `""`.
On Deleted the cluster is removed from the cache. -/
def syncEdgeClustersEvent (t : EventType) (ec : EdgeCluster)
    (missionList : Except String (List Mission)) (lc : LocationCache) :
    LocationCache × List Message :=
  match t with
  | .added | .modified =>
    match missionList with
    | .error _ => (lc, [])
    | .ok ml =>
      if sameStringSet ec.receivedMissions (ml.map Mission.name) then (lc, [])
      else
        let r :=
          match buildResource ec.name "default" "missionlist" "" with
          | .ok s => s
          | .error _ => ""
        (lc, [⟨r, "update", "", .missionListC ml⟩])
  | .deleted => (lc.deleteEdgeCluster ec.name, [])
  | .bookmark => (lc, [])

/-- The first condition with type `"Ready"` (the inner loop of
`initLocating`, which `break`s on the first match). -/
def readyStatus? (node : NodeObj) : Option String :=
  (node.conditions.find? (fun c => c.condType == "Ready")).map (·.status)

/-- One iteration of the node loop of `initLocating`: the pair carries the
cache and the `status` variable, which is declared once outside the
iteration and only overwritten when a `Ready` condition is found. -/
def initNodeStep (p : LocationCache × String) (nd : NodeObj) :
    LocationCache × String :=
  let st := (readyStatus? nd).getD p.2
  (p.1.updateEdgeNode nd.name st, st)

/-- The node phase of `initLocating` (downstream.go lines 482–491): a
single `status` variable is threaded through the iteration; a node with no
`Ready` condition is recorded with the status left over from the previous
iterations. -/
def initNodesPhase (nodes : List NodeObj) (lc : LocationCache) : LocationCache :=
  (nodes.foldl initNodeStep (lc, "")).1

/-- The `status` accumulator of `initNodesPhase` after a list of nodes. -/
def initStatusAfter (nodes : List NodeObj) : String :=
  nodes.foldl (fun s nd => (readyStatus? nd).getD s) ""

/-- The edge-cluster phase of `initLocating` (downstream.go lines 508–511):
`UpdateEdgeCluster(name, true)` for every listed cluster. -/
def initEdgeClustersPhase (clusters : List String) (lc : LocationCache) :
    LocationCache :=
  clusters.foldl (fun acc c => acc.updateEdgeCluster c true) lc

/-! ### Helper lemmas -/

theorem lookupA_setA_self {κ β : Type} [DecidableEq κ]
    (m : List (κ × β)) (k : κ) (v : β) : lookupA (setA m k v) k = some v := by
  induction m with
  | nil => simp [setA, lookupA]
  | cons p rest ih =>
    by_cases h : p.1 = k <;> simp [setA, lookupA, h, ih]

theorem lookupA_eraseA_self {κ β : Type} [DecidableEq κ]
    (m : List (κ × β)) (k : κ) : lookupA (eraseA m k) k = none := by
  induction m with
  | nil => simp [eraseA, lookupA]
  | cons p rest ih =>
    by_cases h : p.1 = k <;> simp [eraseA, lookupA, h, ih]

theorem lookupA_dropNode_not_mem (m : List ((String × String) × List String))
    (n : String) (k : String × String) (v : List String)
    (h : lookupA (LocationCache.dropNode n m) k = some v) : n ∉ v := by
  induction m with
  | nil => simp [LocationCache.dropNode, lookupA] at h
  | cons p rest ih =>
    rw [LocationCache.dropNode] at h
    by_cases he : (p.2.filter (fun x => !(x == n))).isEmpty
    · rw [if_pos he] at h
      exact ih h
    · rw [if_neg he] at h
      by_cases hk : p.1 = k
      · simp only [lookupA, hk, if_pos] at h
        intro hn
        injection h with h2
        rw [← h2] at hn
        have := List.of_mem_filter hn
        simp at this
      · simp only [lookupA, hk, if_false, reduceIte] at h
        exact ih h

theorem filterMap_some_eq_map {α β : Type} (f : α → β) (l : List α) :
    l.filterMap (fun a => some (f a)) = l.map f := by
  induction l <;> simp_all

theorem filterMap_none_eq_nil {α β : Type} (l : List α) :
    l.filterMap (fun _ => (none : Option β)) = [] := by
  induction l <;> simp_all

theorem addOrUpdatePod_edgeClusters (lc : LocationCache) (pod : Pod) :
    (lc.addOrUpdatePod pod).edgeClusters = lc.edgeClusters := rfl

theorem deleteConfigMap_edgeClusters (lc : LocationCache) (ns nm : String) :
    (lc.deleteConfigMap ns nm).edgeClusters = lc.edgeClusters := rfl

theorem deleteSecret_edgeClusters (lc : LocationCache) (ns nm : String) :
    (lc.deleteSecret ns nm).edgeClusters = lc.edgeClusters := rfl

theorem deleteNode_edgeClusters (lc : LocationCache) (n : String) :
    (lc.deleteNode n).edgeClusters = lc.edgeClusters := rfl

theorem mem_updateEdgeCluster_self (lc : LocationCache) (n : String) (b : Bool) :
    n ∈ (lc.updateEdgeCluster n b).edgeClusters := by
  by_cases h : n ∈ lc.edgeClusters <;>
    simp [LocationCache.updateEdgeCluster, h]

theorem mem_updateEdgeCluster_mono (lc : LocationCache) (n x : String) (b : Bool)
    (h : x ∈ lc.edgeClusters) : x ∈ (lc.updateEdgeCluster n b).edgeClusters := by
  by_cases hc : n ∈ lc.edgeClusters <;>
    simp [LocationCache.updateEdgeCluster, hc, h]

theorem mem_initEdgeClustersPhase (cs : List String) (lc : LocationCache)
    (x : String) (h : x ∈ lc.edgeClusters ∨ x ∈ cs) :
    x ∈ (initEdgeClustersPhase cs lc).edgeClusters := by
  induction cs generalizing lc with
  | nil => simpa [initEdgeClustersPhase] using h.resolve_right (by simp)
  | cons c rest ih =>
    rw [initEdgeClustersPhase, List.foldl_cons]
    rcases h with h | h
    · exact ih _ (Or.inl (mem_updateEdgeCluster_mono _ _ _ _ h))
    · rcases List.mem_cons.mp h with rfl | h
      · exact ih _ (Or.inl (mem_updateEdgeCluster_self _ _ _))
      · exact ih _ (Or.inr h)

theorem edgeClusters_foldl_ready (conds : List NodeCondition) (nm : String)
    (lc : LocationCache) :
    (conds.foldl
      (fun acc c =>
        if c.condType = "Ready" then acc.updateEdgeNode nm c.status else acc)
      lc).edgeClusters = lc.edgeClusters := by
  induction conds generalizing lc with
  | nil => rfl
  | cons c rest ih =>
    rw [List.foldl_cons, ih]
    by_cases h : c.condType = "Ready" <;> simp [h, LocationCache.updateEdgeNode]

theorem initNodeFold_snd (nodes : List NodeObj) (lc : LocationCache) (s : String) :
    (nodes.foldl initNodeStep (lc, s)).2 =
      nodes.foldl (fun acc nd => (readyStatus? nd).getD acc) s := by
  induction nodes generalizing lc s with
  | nil => rfl
  | cons nd rest ih => simp [List.foldl_cons, initNodeStep, ih]

theorem sameStringSet_iff (a b : List String) :
    sameStringSet a b = true ↔ a.toFinset = b.toFinset := by
  simp only [sameStringSet, Bool.and_eq_true, List.all_eq_true, Finset.ext_iff,
    List.mem_toFinset]
  constructor
  · rintro ⟨h1, h2⟩ x
    constructor
    · intro hx
      simpa using h1 x hx
    · intro hx
      simpa using h2 x hx
  · intro h
    constructor
    · intro x hx
      simpa using (h x).mp hx
    · intro x hx
      simpa using (h x).mpr hx

/-! ### Claim theorems -/

/-- C1: for a mission event of type Added, Modified or Deleted, the mission
loop emits exactly one message per registered edge cluster (so the message
count is `|EdgeClusters|`), each with resource path
`<clusterName>/default/mission/<missionName>` and operation insert, update
or delete respectively. -/
theorem mission_fanout_per_cluster (m : Mission) (lc : LocationCache)
    (t : EventType) (op : String)
    (h : t = .added ∧ op = "insert" ∨ t = .modified ∧ op = "update" ∨
      t = .deleted ∧ op = "delete") :
    (syncMissionsEvent t m lc).2 =
      lc.edgeClusters.map (fun c =>
        ⟨resourcePath c "default" "mission" m.name, op, m.resourceVersion,
          .missionC m⟩) ∧
    (syncMissionsEvent t m lc).2.length = lc.edgeClusters.length := by
  have key : ∀ o, (lc.edgeClusters.filterMap (fun c =>
      (buildResource c "default" "mission" m.name).toOption.map
        (fun r => (⟨r, o, m.resourceVersion, .missionC m⟩ : Message)))) =
      lc.edgeClusters.map (fun c =>
        ⟨resourcePath c "default" "mission" m.name, o, m.resourceVersion,
          .missionC m⟩) := by
    intro o
    rw [show (fun c => (buildResource c "default" "mission" m.name).toOption.map
        (fun r => (⟨r, o, m.resourceVersion, .missionC m⟩ : Message))) =
        (fun c => some (⟨resourcePath c "default" "mission" m.name, o,
          m.resourceVersion, .missionC m⟩ : Message)) from ?_]
    · exact filterMap_some_eq_map _ _
    · funext c
      simp [buildResource, Except.toOption]
  rcases h with ⟨ht, ho⟩ | ⟨ht, ho⟩ | ⟨ht, ho⟩ <;> subst ht <;> subst ho <;>
    simp [syncMissionsEvent, key]

/-- Witness for C1: with clusters `ec1, ec2` registered, an Added mission
`m1` produces exactly the two insert messages. -/
theorem mission_fanout_per_cluster_witness :
    (syncMissionsEvent .added ⟨"m1", "3"⟩
        ⟨[], [], [], [], ["ec1", "ec2"]⟩).2 =
      [⟨"ec1/default/mission/m1", "insert", "3", .missionC ⟨"m1", "3"⟩⟩,
       ⟨"ec2/default/mission/m1", "insert", "3", .missionC ⟨"m1", "3"⟩⟩] ∧
    (syncMissionsEvent .added ⟨"m1", "3"⟩
        ⟨[], [], [], [], ["ec1", "ec2"]⟩).2.length = 2 := by
  have h := mission_fanout_per_cluster ⟨"m1", "3"⟩
    ⟨[], [], [], [], ["ec1", "ec2"]⟩ .added "insert" (Or.inl ⟨rfl, rfl⟩)
  exact ⟨by rw [h.1]; rfl, by rw [h.2]; rfl⟩

/-- C3: a secret event of type Added is handled exactly like Modified: every
message it emits carries operation `update` (never `insert`). -/
theorem secret_added_maps_to_update (s : Secret) (lc : LocationCache) :
    syncSecretEvent .added s lc = syncSecretEvent .modified s lc ∧
    ((syncSecretEvent .added s lc).2.all
      (fun msg => msg.operation == "update")) = true := by
  refine ⟨rfl, ?_⟩
  simp only [syncSecretEvent, List.all_eq_true, List.mem_filterMap]
  rintro msg ⟨n, _, hmsg⟩
  cases hb : buildResource n s.namespace_ "secret" s.name <;>
    simp [hb, Except.toOption] at hmsg
  simp [← hmsg]

/-- C7: a node event of type Deleted removes the node from `EdgeNodes` and
from every `ConfigMapNodes`/`SecretNodes` value set, and emits exactly one
delete message with resource path `<nodeName>/namespace/node/<nodeName>`
(literal `namespace` segment). -/
theorem node_deleted_removes_then_emits (node : NodeObj) (lc : LocationCache) :
    syncEdgeNodesEvent .deleted node lc =
      (lc.deleteNode node.name,
       [⟨resourcePath node.name "namespace" "node" node.name, "delete", "",
         .empty⟩]) ∧
    (syncEdgeNodesEvent .deleted node lc).1.getNodeStatus node.name = none ∧
    ∀ ns nm,
      node.name ∉ (syncEdgeNodesEvent .deleted node lc).1.configMapNodesOf ns nm ∧
      node.name ∉ (syncEdgeNodesEvent .deleted node lc).1.secretNodesOf ns nm := by
  have hstep : syncEdgeNodesEvent .deleted node lc =
      (lc.deleteNode node.name,
       [⟨resourcePath node.name "namespace" "node" node.name, "delete", "",
         .empty⟩]) := by
    simp [syncEdgeNodesEvent, buildResource]
  refine ⟨hstep, ?_, ?_⟩
  · rw [hstep]
    simp [LocationCache.getNodeStatus, LocationCache.deleteNode,
      lookupA_eraseA_self]
  · intro ns nm
    rw [hstep]
    constructor
    · show node.name ∉ (lookupA (LocationCache.dropNode node.name lc.configMapNodes)
        (ns, nm)).getD []
      cases hl : lookupA (LocationCache.dropNode node.name lc.configMapNodes)
          (ns, nm) with
      | none => simp
      | some v => simpa using lookupA_dropNode_not_mem _ _ _ _ hl
    · show node.name ∉ (lookupA (LocationCache.dropNode node.name lc.secretNodes)
        (ns, nm)).getD []
      cases hl : lookupA (LocationCache.dropNode node.name lc.secretNodes)
          (ns, nm) with
      | none => simp
      | some v => simpa using lookupA_dropNode_not_mem _ _ _ _ hl

/-- Witness for C7: deleting node `n1` removes it from the cache (including
the configmap index entry it shared with `n2`) and emits the one delete
message `n1/namespace/node/n1`. -/
theorem node_deleted_removes_then_emits_witness :
    (syncEdgeNodesEvent .deleted ⟨"n1", "9", []⟩
        ⟨[("n1", "True"), ("n2", "True")], [(("app", "c1"), ["n1", "n2"])],
         [(("app", "s1"), ["n1"])], [], []⟩).2 =
      [⟨"n1/namespace/node/n1", "delete", "", .empty⟩] ∧
    (syncEdgeNodesEvent .deleted ⟨"n1", "9", []⟩
        ⟨[("n1", "True"), ("n2", "True")], [(("app", "c1"), ["n1", "n2"])],
         [(("app", "s1"), ["n1"])], [], []⟩).1.getNodeStatus "n1" = none ∧
    "n1" ∉ (syncEdgeNodesEvent .deleted ⟨"n1", "9", []⟩
        ⟨[("n1", "True"), ("n2", "True")], [(("app", "c1"), ["n1", "n2"])],
         [(("app", "s1"), ["n1"])], [], []⟩).1.configMapNodesOf "app" "c1" := by
  have h := node_deleted_removes_then_emits ⟨"n1", "9", []⟩
    ⟨[("n1", "True"), ("n2", "True")], [(("app", "c1"), ["n1", "n2"])],
     [(("app", "s1"), ["n1"])], [], []⟩
  exact ⟨by rw [h.1]; rfl, h.2.1, (h.2.2 "app" "c1").1⟩

/-- C4: on a configmap Deleted event the destination set is snapshotted
before the index entry is purged, so (for a namespaced object) the delete
message still goes to every node that referenced the configmap at event
time; and any configmap event whose destination set is empty emits zero
messages. -/
theorem configmap_deleted_snapshot (cm : ConfigMap) (lc : LocationCache) :
    (syncConfigMapEvent .deleted cm lc).1 =
      lc.deleteConfigMap cm.namespace_ cm.name ∧
    (cm.namespace_ ≠ "" →
      (syncConfigMapEvent .deleted cm lc).2 =
        (lc.configMapNodesOf cm.namespace_ cm.name).map (fun n =>
          ⟨resourcePath n cm.namespace_ "configmap" cm.name, "delete",
           cm.resourceVersion, .configMapC cm⟩)) ∧
    (∀ t, lc.configMapNodesOf cm.namespace_ cm.name = [] →
      (syncConfigMapEvent t cm lc).2 = []) := by
  refine ⟨rfl, ?_, ?_⟩
  · intro h
    have heq : (syncConfigMapEvent .deleted cm lc).2 =
        (lc.configMapNodesOf cm.namespace_ cm.name).filterMap (fun n =>
          (buildResource n cm.namespace_ "configmap" cm.name).toOption.map
            (fun r => (⟨r, "delete", cm.resourceVersion, .configMapC cm⟩ :
              Message))) := rfl
    rw [heq, show (fun n => (buildResource n cm.namespace_ "configmap" cm.name).toOption.map
        (fun r => (⟨r, "delete", cm.resourceVersion, .configMapC cm⟩ : Message))) =
        (fun n => some (⟨resourcePath n cm.namespace_ "configmap" cm.name,
          "delete", cm.resourceVersion, .configMapC cm⟩ : Message)) from ?_]
    · exact filterMap_some_eq_map _ _
    · funext n
      simp [buildResource, h, Except.toOption]
  · intro t h
    cases t <;> simp [syncConfigMapEvent, h]

/-- Witness for C4: deleting `app/c1`, referenced by `n1` and `n2`, emits
the two delete messages; a configmap with no referencing node emits
nothing. -/
theorem configmap_deleted_snapshot_witness :
    ("app" : String) ≠ "" ∧
    (syncConfigMapEvent .deleted ⟨"c1", "app", "5"⟩
        ⟨[("n1", "True")], [(("app", "c1"), ["n1", "n2"])], [], [], []⟩).2 =
      [⟨"n1/app/configmap/c1", "delete", "5", .configMapC ⟨"c1", "app", "5"⟩⟩,
       ⟨"n2/app/configmap/c1", "delete", "5", .configMapC ⟨"c1", "app", "5"⟩⟩] ∧
    (syncConfigMapEvent .modified ⟨"c9", "app", "5"⟩
        ⟨[("n1", "True")], [(("app", "c1"), ["n1", "n2"])], [], [], []⟩).2 = [] := by
  refine ⟨by decide, ?_, ?_⟩
  · rw [(configmap_deleted_snapshot ⟨"c1", "app", "5"⟩
      ⟨[("n1", "True")], [(("app", "c1"), ["n1", "n2"])], [], [], []⟩).2.1
      (by decide)]
    rfl
  · exact (configmap_deleted_snapshot ⟨"c9", "app", "5"⟩
      ⟨[("n1", "True")], [(("app", "c1"), ["n1", "n2"])], [], [], []⟩).2.2
      .modified (by rfl)

/-- C5: a pod event whose node is not an edge node emits nothing and leaves
the cache untouched; for a pod on an edge node (a namespaced object)
Added/Modified/Deleted map to insert/update/delete, with `AddOrUpdatePod`
applied on Added and Modified but not on Deleted. -/
theorem pod_loop_filter_and_map (pod : Pod) (lc : LocationCache) :
    (lc.isEdgeNode pod.nodeName = false →
      ∀ t, syncPodEvent t pod lc = (lc, [])) ∧
    (lc.isEdgeNode pod.nodeName = true → pod.namespace_ ≠ "" →
      syncPodEvent .added pod lc =
        (lc.addOrUpdatePod pod,
         [⟨resourcePath pod.nodeName pod.namespace_ "pod" pod.name, "insert",
           pod.resourceVersion, .podC pod⟩]) ∧
      syncPodEvent .modified pod lc =
        (lc.addOrUpdatePod pod,
         [⟨resourcePath pod.nodeName pod.namespace_ "pod" pod.name, "update",
           pod.resourceVersion, .podC pod⟩]) ∧
      syncPodEvent .deleted pod lc =
        (lc,
         [⟨resourcePath pod.nodeName pod.namespace_ "pod" pod.name, "delete",
           pod.resourceVersion, .podC pod⟩])) := by
  constructor
  · intro h t
    simp [syncPodEvent, h]
  · intro h1 h2
    refine ⟨?_, ?_, ?_⟩ <;> simp [syncPodEvent, h1, h2, buildResource]

/-- Witness for C5: an Added pod on edge node `n1` referencing configmap
`c1` and secret `s1` yields one insert message and the refreshed indices;
a pod on the unknown node `nX` is skipped entirely. -/
theorem pod_loop_filter_and_map_witness :
    syncPodEvent .added ⟨"p", "app", "n1", "2", ["c1"], ["s1"]⟩
        ⟨[("n1", "True")], [], [], [], []⟩ =
      (⟨[("n1", "True")], [(("app", "c1"), ["n1"])], [(("app", "s1"), ["n1"])],
        [(("app", "p"), ⟨"n1", ["c1"], ["s1"]⟩)], []⟩,
       [⟨"n1/app/pod/p", "insert", "2",
         .podC ⟨"p", "app", "n1", "2", ["c1"], ["s1"]⟩⟩]) ∧
    syncPodEvent .deleted ⟨"p", "app", "n1", "2", ["c1"], ["s1"]⟩
        ⟨[("n1", "True")], [], [], [], []⟩ =
      (⟨[("n1", "True")], [], [], [], []⟩,
       [⟨"n1/app/pod/p", "delete", "2",
         .podC ⟨"p", "app", "n1", "2", ["c1"], ["s1"]⟩⟩]) ∧
    syncPodEvent .added ⟨"p", "app", "nX", "2", ["c1"], ["s1"]⟩
        ⟨[("n1", "True")], [], [], [], []⟩ = (⟨[("n1", "True")], [], [], [], []⟩, []) := by
  have h := pod_loop_filter_and_map ⟨"p", "app", "n1", "2", ["c1"], ["s1"]⟩
    ⟨[("n1", "True")], [], [], [], []⟩
  have hx := pod_loop_filter_and_map ⟨"p", "app", "nX", "2", ["c1"], ["s1"]⟩
    ⟨[("n1", "True")], [], [], [], []⟩
  refine ⟨?_, ?_, ?_⟩
  · rw [(h.2 (by decide) (by decide)).1]
    rfl
  · rw [(h.2 (by decide) (by decide)).2.2]
    rfl
  · exact hx.1 (by decide) .added

/-- C2: on an edge-cluster Added/Modified event, at most one message is
emitted; with a successful mission listing, exactly one `update` message
(content the full mission list, routed to the cluster) is emitted iff the
reported mission-name set differs from the cloud mission-name set; a
failed listing emits nothing. -/
theorem edgecluster_reconcile_iff (t : EventType) (ec : EdgeCluster)
    (ml : List Mission) (lc : LocationCache)
    (ht : t = .added ∨ t = .modified) :
    (syncEdgeClustersEvent t ec (.ok ml) lc).2.length ≤ 1 ∧
    ((syncEdgeClustersEvent t ec (.ok ml) lc).2 = [] ↔
      ec.receivedMissions.toFinset = (ml.map Mission.name).toFinset) ∧
    (ec.receivedMissions.toFinset ≠ (ml.map Mission.name).toFinset →
      (syncEdgeClustersEvent t ec (.ok ml) lc).2 =
        [⟨resourcePath ec.name "default" "missionlist" "", "update", "",
          .missionListC ml⟩]) ∧
    (∀ err, (syncEdgeClustersEvent t ec (.error err) lc).2 = []) := by
  have hstep : ∀ t', t' = EventType.added ∨ t' = EventType.modified →
      syncEdgeClustersEvent t' ec (.ok ml) lc =
        (if sameStringSet ec.receivedMissions (ml.map Mission.name) then (lc, [])
         else (lc, [⟨resourcePath ec.name "default" "missionlist" "", "update",
           "", .missionListC ml⟩])) := by
    rintro t' (rfl | rfl) <;>
      by_cases hs : sameStringSet ec.receivedMissions (ml.map Mission.name) <;>
        simp [syncEdgeClustersEvent, hs, buildResource]
  rw [hstep t ht]
  by_cases hs : sameStringSet ec.receivedMissions (ml.map Mission.name)
  · have := (sameStringSet_iff _ _).mp hs
    refine ⟨by simp [hs], by simp [hs, this], fun hn => absurd this hn, ?_⟩
    intro err
    rcases ht with rfl | rfl <;> simp [syncEdgeClustersEvent]
  · have hne : ¬ ec.receivedMissions.toFinset = (ml.map Mission.name).toFinset := by
      intro he
      exact hs ((sameStringSet_iff _ _).mpr he)
    refine ⟨by simp [hs], by simp [hs, hne], fun _ => by simp [hs], ?_⟩
    intro err
    rcases ht with rfl | rfl <;> simp [syncEdgeClustersEvent]

/-- Witness for C2: cluster `ec1` reporting `{m1}` against cloud missions
`{m1, m2}` gets exactly the one missionlist update; reporting `{m1, m2}`
gets nothing. -/
theorem edgecluster_reconcile_iff_witness :
    (syncEdgeClustersEvent .modified ⟨"ec1", "1", ["m1"]⟩
        (.ok [⟨"m1", "1"⟩, ⟨"m2", "1"⟩]) ⟨[], [], [], [], ["ec1"]⟩).2 =
      [⟨"ec1/default/missionlist/", "update", "",
        .missionListC [⟨"m1", "1"⟩, ⟨"m2", "1"⟩]⟩] ∧
    (syncEdgeClustersEvent .modified ⟨"ec1", "1", ["m1", "m2"]⟩
        (.ok [⟨"m1", "1"⟩, ⟨"m2", "1"⟩]) ⟨[], [], [], [], ["ec1"]⟩).2 = [] := by
  constructor
  · rw [(edgecluster_reconcile_iff .modified ⟨"ec1", "1", ["m1"]⟩
      [⟨"m1", "1"⟩, ⟨"m2", "1"⟩] ⟨[], [], [], [], ["ec1"]⟩
      (Or.inr rfl)).2.2.1 (by decide)]
    rfl
  · exact (edgecluster_reconcile_iff .modified ⟨"ec1", "1", ["m1", "m2"]⟩
      [⟨"m1", "1"⟩, ⟨"m2", "1"⟩] ⟨[], [], [], [], ["ec1"]⟩
      (Or.inr rfl)).2.1.mpr (by decide)

/-- C6: in every sync loop a failed resource build skips the event (or the
destination): no message reaches the sink for it.  In the pod, configmap,
secret, rule and ruleEndpoint loops the build can fail (missing
namespace/name) and the event is dropped; the builds performed by the
node-delete, mission and edge-cluster paths always succeed (their
namespace and kind arguments are non-empty constants), so in particular
the unchecked error of the missionlist build can never fire. -/
theorem build_failure_skips :
    (∀ t (pod : Pod) lc, pod.namespace_ = "" → syncPodEvent t pod lc = (lc, [])) ∧
    (∀ t (cm : ConfigMap) lc, cm.namespace_ = "" →
      (syncConfigMapEvent t cm lc).2 = []) ∧
    (∀ t (s : Secret) lc, s.namespace_ = "" → (syncSecretEvent t s lc).2 = []) ∧
    (∀ t (r : Rule), r.name = "" → syncRuleEvent t r = []) ∧
    (∀ t (r : RuleEndpoint), r.name = "" → syncRuleEndpointEvent t r = []) ∧
    (∀ ec : EdgeCluster, buildResource ec.name "default" "missionlist" "" =
      .ok (resourcePath ec.name "default" "missionlist" "")) ∧
    (∀ (c : String) (m : Mission), buildResource c "default" "mission" m.name =
      .ok (resourcePath c "default" "mission" m.name)) ∧
    (∀ nd : NodeObj, buildResource nd.name "namespace" "node" nd.name =
      .ok (resourcePath nd.name "namespace" "node" nd.name)) := by
  refine ⟨?_, ?_, ?_, ?_, ?_, ?_, ?_, ?_⟩
  · intro t pod lc h
    by_cases he : lc.isEdgeNode pod.nodeName <;>
      simp [syncPodEvent, he, h, buildResource]
  · intro t cm lc h
    cases t <;>
      simp [syncConfigMapEvent, h, buildResource, Except.toOption,
        filterMap_none_eq_nil]
  · intro t s lc h
    cases t <;>
      simp [syncSecretEvent, h, buildResource, Except.toOption,
        filterMap_none_eq_nil]
  · intro t r h
    simp [syncRuleEvent, buildResourceForRouter, h]
  · intro t r h
    simp [syncRuleEndpointEvent, buildResourceForRouter, h]
  · intro ec
    simp [buildResource]
  · intro c m
    simp [buildResource]
  · intro nd
    simp [buildResource]

/-- Witness for C6: a pod / configmap with empty namespace and a rule with
empty name are all skipped without a message (even with an edge node or a
referencing node present), while the missionlist build trivially
succeeds. -/
theorem build_failure_skips_witness :
    syncPodEvent .added ⟨"p", "", "n1", "2", [], []⟩
        ⟨[("n1", "True")], [], [], [], []⟩ = (⟨[("n1", "True")], [], [], [], []⟩, []) ∧
    (syncConfigMapEvent .added ⟨"c1", "", "5"⟩
        ⟨[], [(("", "c1"), ["n1"])], [], [], []⟩).2 = [] ∧
    syncRuleEvent .added ⟨"", "1"⟩ = [] ∧
    buildResource "ec1" "default" "missionlist" "" = .ok "ec1/default/missionlist/" := by
  have h := build_failure_skips
  refine ⟨h.1 .added ⟨"p", "", "n1", "2", [], []⟩ _ rfl,
    h.2.1 .added ⟨"c1", "", "5"⟩ _ rfl, h.2.2.2.1 .added ⟨"", "1"⟩ rfl, ?_⟩
  exact h.2.2.2.2.2.1 ⟨"ec1", "1", []⟩

/-- C8 counterexample: the node-delete message is assembled without
`SetResourceVersion`, so its header carries `""` and not the event
object's resource version `"7"`. -/
theorem envelope_missing_resource_version :
    ((syncEdgeNodesEvent .deleted ⟨"n1", "7", []⟩
        ⟨[("n1", "True")], [], [], [], []⟩).2.map Message.resourceVersion) = [""] ∧
    (⟨"n1", "7", []⟩ : NodeObj).resourceVersion = "7" ∧ ("" : String) ≠ "7" :=
  ⟨rfl, rfl, by decide⟩

/-- C8 amended: messages of the pod, configmap, secret, rule, ruleEndpoint
and mission loops carry the event object's resource version in the header;
the node-delete message and the edge-cluster missionlist message are sent
with an empty resource version. -/
theorem resource_version_in_header :
    (∀ t (p : Pod) lc, ((syncPodEvent t p lc).2.all
      (fun m => m.resourceVersion == p.resourceVersion)) = true) ∧
    (∀ t (cm : ConfigMap) lc, ((syncConfigMapEvent t cm lc).2.all
      (fun m => m.resourceVersion == cm.resourceVersion)) = true) ∧
    (∀ t (s : Secret) lc, ((syncSecretEvent t s lc).2.all
      (fun m => m.resourceVersion == s.resourceVersion)) = true) ∧
    (∀ t (r : Rule), ((syncRuleEvent t r).all
      (fun m => m.resourceVersion == r.resourceVersion)) = true) ∧
    (∀ t (r : RuleEndpoint), ((syncRuleEndpointEvent t r).all
      (fun m => m.resourceVersion == r.resourceVersion)) = true) ∧
    (∀ t (m : Mission) lc, ((syncMissionsEvent t m lc).2.all
      (fun msg => msg.resourceVersion == m.resourceVersion)) = true) ∧
    (∀ t (nd : NodeObj) lc, ((syncEdgeNodesEvent t nd lc).2.all
      (fun m => m.resourceVersion == "")) = true) ∧
    (∀ t ec ml lc, ((syncEdgeClustersEvent t ec ml lc).2.all
      (fun m => m.resourceVersion == "")) = true) := by
  refine ⟨?_, ?_, ?_, ?_, ?_, ?_, ?_, ?_⟩
  · intro t p lc
    by_cases he : lc.isEdgeNode p.nodeName
    · cases hb : buildResource p.nodeName p.namespace_ "pod" p.name <;>
        cases t <;> simp [syncPodEvent, he, hb]
    · simp [syncPodEvent, he]
  · intro t cm lc
    cases t <;>
      simp only [syncConfigMapEvent, List.all_eq_true, List.mem_filterMap] <;>
      rintro msg ⟨n, -, hmsg⟩ <;>
      cases hb : buildResource n cm.namespace_ "configmap" cm.name <;>
      simp [hb, Except.toOption] at hmsg <;> simp [← hmsg]
  · intro t s lc
    cases t <;>
      simp only [syncSecretEvent, List.all_eq_true, List.mem_filterMap] <;>
      rintro msg ⟨n, -, hmsg⟩ <;>
      cases hb : buildResource n s.namespace_ "secret" s.name <;>
      simp [hb, Except.toOption] at hmsg <;> simp [← hmsg]
  · intro t r
    cases hb : buildResourceForRouter "rule" r.name <;> cases t <;>
      simp [syncRuleEvent, hb]
  · intro t r
    cases hb : buildResourceForRouter "ruleendpoint" r.name <;> cases t <;>
      simp [syncRuleEndpointEvent, hb]
  · intro t m lc
    cases t <;>
      simp only [syncMissionsEvent, List.all_eq_true, List.mem_filterMap] <;>
      rintro msg ⟨c, -, hmsg⟩ <;>
      cases hb : buildResource c "default" "mission" m.name <;>
      simp [hb, Except.toOption] at hmsg <;> simp [← hmsg]
  · intro t nd lc
    cases t <;> simp [syncEdgeNodesEvent, buildResource]
  · intro t ec ml lc
    cases t <;> cases ml <;> (try simp [syncEdgeClustersEvent]) <;>
      rename_i l <;>
      by_cases hs : sameStringSet ec.receivedMissions (l.map Mission.name) <;>
      simp [syncEdgeClustersEvent, hs]

/-- C9: the edge-cluster loop never inserts into `EdgeClusters` (Added and
Modified leave the cache untouched, Deleted removes the entry), no other
sync loop touches `EdgeClusters`, mission fan-out messages only go to
currently registered clusters, and only `initLocating` registers
clusters. -/
theorem edgeclusters_only_grow_at_init :
    (∀ t ec ml lc, (syncEdgeClustersEvent t ec ml lc).1.edgeClusters ⊆
      lc.edgeClusters) ∧
    (∀ ec ml lc, (syncEdgeClustersEvent .added ec ml lc).1 = lc ∧
      (syncEdgeClustersEvent .modified ec ml lc).1 = lc) ∧
    (∀ ec ml lc, (syncEdgeClustersEvent .deleted ec ml lc).1.edgeClusters =
      lc.edgeClusters.filter (fun x => !(x == ec.name))) ∧
    (∀ t pod lc, (syncPodEvent t pod lc).1.edgeClusters = lc.edgeClusters) ∧
    (∀ t cm lc, (syncConfigMapEvent t cm lc).1.edgeClusters = lc.edgeClusters) ∧
    (∀ t s lc, (syncSecretEvent t s lc).1.edgeClusters = lc.edgeClusters) ∧
    (∀ t nd lc, (syncEdgeNodesEvent t nd lc).1.edgeClusters = lc.edgeClusters) ∧
    (∀ t m lc, (syncMissionsEvent t m lc).1 = lc) ∧
    (∀ t m lc, ∀ msg ∈ (syncMissionsEvent t m lc).2, ∃ c ∈ lc.edgeClusters,
      msg.resource = resourcePath c "default" "mission" m.name) ∧
    (∀ cs lc, ∀ c ∈ cs, c ∈ (initEdgeClustersPhase cs lc).edgeClusters) := by
  have hAM : ∀ ec ml lc, (syncEdgeClustersEvent .added ec ml lc).1 = lc ∧
      (syncEdgeClustersEvent .modified ec ml lc).1 = lc := by
    intro ec ml lc
    cases ml with
    | error e => exact ⟨rfl, rfl⟩
    | ok l =>
      by_cases hs : sameStringSet ec.receivedMissions (l.map Mission.name) <;>
        exact ⟨by simp [syncEdgeClustersEvent, hs], by simp [syncEdgeClustersEvent, hs]⟩
  refine ⟨?_, hAM, fun _ _ _ => rfl, ?_, ?_, ?_, ?_, ?_, ?_, ?_⟩
  · intro t ec ml lc
    cases t with
    | added => rw [(hAM ec ml lc).1]; exact List.Subset.refl _
    | modified => rw [(hAM ec ml lc).2]; exact List.Subset.refl _
    | deleted => exact fun x hx => List.mem_of_mem_filter hx
    | bookmark => exact List.Subset.refl _
  · intro t pod lc
    by_cases he : lc.isEdgeNode pod.nodeName
    · cases hb : buildResource pod.nodeName pod.namespace_ "pod" pod.name <;>
        cases t <;>
        simp [syncPodEvent, he, hb, addOrUpdatePod_edgeClusters]
    · simp [syncPodEvent, he]
  · intro t cm lc
    cases t <;> simp [syncConfigMapEvent, deleteConfigMap_edgeClusters]
  · intro t s lc
    cases t <;> simp [syncSecretEvent, deleteSecret_edgeClusters]
  · intro t nd lc
    cases t <;>
      simp [syncEdgeNodesEvent, buildResource, deleteNode_edgeClusters,
        edgeClusters_foldl_ready]
  · intro t m lc
    cases t <;> rfl
  · intro t m lc msg hmsg
    have key : ∀ op, msg ∈ (lc.edgeClusters.filterMap (fun c =>
        (buildResource c "default" "mission" m.name).toOption.map
          (fun r => (⟨r, op, m.resourceVersion, .missionC m⟩ : Message)))) →
        ∃ c ∈ lc.edgeClusters,
          msg.resource = resourcePath c "default" "mission" m.name := by
      intro op hm
      rw [List.mem_filterMap] at hm
      obtain ⟨c, hc, heq⟩ := hm
      have hb : buildResource c "default" "mission" m.name =
          .ok (resourcePath c "default" "mission" m.name) := by
        simp [buildResource]
      rw [hb] at heq
      simp [Except.toOption] at heq
      exact ⟨c, hc, by cases heq; rfl⟩
    cases t with
    | added => exact key "insert" hmsg
    | modified => exact key "update" hmsg
    | deleted => exact key "delete" hmsg
    | bookmark => simp [syncMissionsEvent] at hmsg
  · intro cs lc c hc
    exact mem_initEdgeClustersPhase cs lc c (Or.inr hc)

/-- Witness for C9: deleting `ec1` shrinks the cluster set; the one mission
message for a cache holding only `ec1` is addressed to a registered
cluster; `initLocating` registers the listed cluster `ec9`. -/
theorem edgeclusters_only_grow_at_init_witness :
    (syncEdgeClustersEvent .deleted ⟨"ec1", "1", []⟩ (.ok [])
        ⟨[], [], [], [], ["ec1", "ec2"]⟩).1.edgeClusters ⊆ ["ec1", "ec2"] ∧
    (∃ c ∈ (⟨[], [], [], [], ["ec1"]⟩ : LocationCache).edgeClusters,
      (Message.mk "ec1/default/mission/m1" "insert" "3"
        (.missionC ⟨"m1", "3"⟩)).resource =
        resourcePath c "default" "mission" (⟨"m1", "3"⟩ : Mission).name) ∧
    "ec9" ∈ (initEdgeClustersPhase ["ec8", "ec9"]
      ⟨[], [], [], [], []⟩).edgeClusters := by
  have h := edgeclusters_only_grow_at_init
  refine ⟨h.1 .deleted ⟨"ec1", "1", []⟩ (.ok []) ⟨[], [], [], [], ["ec1", "ec2"]⟩,
    ?_, h.2.2.2.2.2.2.2.2.2 ["ec8", "ec9"] ⟨[], [], [], [], []⟩ "ec9" (by decide)⟩
  exact h.2.2.2.2.2.2.2.2.1 .added ⟨"m1", "3"⟩ ⟨[], [], [], [], ["ec1"]⟩
    ⟨"ec1/default/mission/m1", "insert", "3", .missionC ⟨"m1", "3"⟩⟩ (by decide)

/-- C10: in `initLocating` the `status` variable is declared once outside
the node iteration, so a labeled node without a `Ready` condition is
recorded in `EdgeNodes` with the status left over from the previously
iterated nodes (the empty string when it comes first), not skipped and not
given a distinct unknown value. -/
theorem init_locating_status_leak (pre : List NodeObj) (n : NodeObj)
    (lc : LocationCache) (h : readyStatus? n = none) :
    lookupA (initNodesPhase (pre ++ [n]) lc).edgeNodes n.name =
      some (initStatusAfter pre) ∧
    initStatusAfter ([] : List NodeObj) = "" := by
  refine ⟨?_, rfl⟩
  rw [initNodesPhase, List.foldl_append]
  simp only [List.foldl_cons, List.foldl_nil]
  rw [show initNodeStep (List.foldl initNodeStep (lc, "") pre) n =
      ((List.foldl initNodeStep (lc, "") pre).1.updateEdgeNode n.name
        (List.foldl initNodeStep (lc, "") pre).2,
       (List.foldl initNodeStep (lc, "") pre).2) from by
    simp [initNodeStep, h]]
  simp only [LocationCache.updateEdgeNode]
  rw [lookupA_setA_self, initNodeFold_snd]
  rfl

/-- Witness for C10: node `n2` has no conditions at all, yet it is recorded
with status `"True"` — the Ready status of the previously iterated node
`n1`. -/
theorem init_locating_status_leak_witness :
    readyStatus? (⟨"n2", "2", []⟩ : NodeObj) = none ∧
    lookupA (initNodesPhase [⟨"n1", "1", [⟨"Ready", "True"⟩]⟩, ⟨"n2", "2", []⟩]
        ⟨[], [], [], [], []⟩).edgeNodes "n2" = some "True" := by
  refine ⟨rfl, ?_⟩
  have h := init_locating_status_leak [⟨"n1", "1", [⟨"Ready", "True"⟩]⟩]
    ⟨"n2", "2", []⟩ ⟨[], [], [], [], []⟩ rfl
  simpa using h.1

end Fornax
